import Mathlib

set_option maxRecDepth 100000

/-!
A shallow embedding of the lexer in `src/lexer.rs` of rust-cc, together with
proofs about it.  Strings are modelled as lists of Unicode scalar values
(Lean `Char` coincides with Rust `char`); Rust `str::len()` is the UTF-8
byte length, modelled by `utf8Length`.  The regex character classes of the
lexer are Unicode-aware (the regex crate's default), so they are modelled
as predicates on `Char`.  A panic (integer-literal `parse().unwrap()` or
the `unreachable!` arm of `convert_symbol_str`) is modelled as an explicit
`LexResult.panicked` outcome.
-/

namespace RustCC

/-- ASCII letter: the class `[a-zA-Z]` at the start of `IDENTIFIER_REGEX`. -/
def isAsciiLetter (c : Char) : Bool :=
  ('a' ≤ c && c ≤ 'z') || ('A' ≤ c && c ≤ 'Z')

/-- ASCII word character: the ASCII portion of the regex class `\w`,
exactly the characters `0`-`9`, `A`-`Z`, `a`-`z` and underscore. -/
def isAsciiWordChar (c : Char) : Bool :=
  isAsciiLetter c || c.isDigit || c = '_'

/-- Unicode White_Space: the regex crate's class `\s`, used by
`WHITESPACE_REGEX` (`^\s+`).  The class is the nine ASCII and sixteen
non-ASCII White_Space scalar values. -/
def isRustWhitespace (c : Char) : Bool :=
  ([9, 10, 11, 12, 13, 32, 133, 160, 5760, 8232, 8233, 8239, 8287, 12288] : List Nat).contains c.toNat
  || (8192 ≤ c.toNat && c.toNat ≤ 8202)

/-- The class of `SYMBOL_REGEX`: one of the five punctuation symbols. -/
def isSymbolChar (c : Char) : Bool :=
  ['(', ')', '{', '}', ';'].contains c

/-- Number of bytes in the UTF-8 encoding of a scalar value; Rust
`str::len()` is the sum of these over the string's characters. -/
def utf8Len (c : Char) : Nat :=
  if c.toNat < 128 then 1
  else if c.toNat < 2048 then 2
  else if c.toNat < 65536 then 3
  else 4

/-- UTF-8 byte length of a string, Rust `str::len()`. -/
def utf8Length (s : List Char) : Nat :=
  (s.map utf8Len).sum

end RustCC

namespace RustCC

/-- Inclusive codepoint ranges of the non-ASCII Unicode word characters:
letters, combining marks, decimal digits, letter numbers, connector
punctuation and the join controls U+200C and U+200D.  Together with
`isAsciiWordChar` these make up the Unicode-aware word class `\w` of the
regex crate, used by `IDENTIFIER_REGEX` (`^[a-zA-Z]\w*`). -/
def nonAsciiWordRanges : List (Nat × Nat) := [
  (170, 170), (181, 181), (186, 186), (192, 214), (216, 246), (248, 705),
  (710, 721), (736, 740), (748, 748), (750, 750), (768, 884), (886, 887),
  (890, 893), (895, 895), (902, 902), (904, 906), (908, 908), (910, 929),
  (931, 1013), (1015, 1153), (1155, 1327), (1329, 1366), (1369, 1369), (1376, 1416),
  (1425, 1469), (1471, 1471), (1473, 1474), (1476, 1477), (1479, 1479), (1488, 1514),
  (1519, 1522), (1552, 1562), (1568, 1641), (1646, 1747), (1749, 1756), (1759, 1768),
  (1770, 1788), (1791, 1791), (1808, 1866), (1869, 1969), (1984, 2037), (2042, 2042),
  (2045, 2045), (2048, 2093), (2112, 2139), (2144, 2154), (2160, 2183), (2185, 2190),
  (2200, 2273), (2275, 2403), (2406, 2415), (2417, 2435), (2437, 2444), (2447, 2448),
  (2451, 2472), (2474, 2480), (2482, 2482), (2486, 2489), (2492, 2500), (2503, 2504),
  (2507, 2510), (2519, 2519), (2524, 2525), (2527, 2531), (2534, 2545), (2556, 2556),
  (2558, 2558), (2561, 2563), (2565, 2570), (2575, 2576), (2579, 2600), (2602, 2608),
  (2610, 2611), (2613, 2614), (2616, 2617), (2620, 2620), (2622, 2626), (2631, 2632),
  (2635, 2637), (2641, 2641), (2649, 2652), (2654, 2654), (2662, 2677), (2689, 2691),
  (2693, 2701), (2703, 2705), (2707, 2728), (2730, 2736), (2738, 2739), (2741, 2745),
  (2748, 2757), (2759, 2761), (2763, 2765), (2768, 2768), (2784, 2787), (2790, 2799),
  (2809, 2815), (2817, 2819), (2821, 2828), (2831, 2832), (2835, 2856), (2858, 2864),
  (2866, 2867), (2869, 2873), (2876, 2884), (2887, 2888), (2891, 2893), (2901, 2903),
  (2908, 2909), (2911, 2915), (2918, 2927), (2929, 2929), (2946, 2947), (2949, 2954),
  (2958, 2960), (2962, 2965), (2969, 2970), (2972, 2972), (2974, 2975), (2979, 2980),
  (2984, 2986), (2990, 3001), (3006, 3010), (3014, 3016), (3018, 3021), (3024, 3024),
  (3031, 3031), (3046, 3055), (3072, 3084), (3086, 3088), (3090, 3112), (3114, 3129),
  (3132, 3140), (3142, 3144), (3146, 3149), (3157, 3158), (3160, 3162), (3165, 3165),
  (3168, 3171), (3174, 3183), (3200, 3203), (3205, 3212), (3214, 3216), (3218, 3240),
  (3242, 3251), (3253, 3257), (3260, 3268), (3270, 3272), (3274, 3277), (3285, 3286),
  (3293, 3294), (3296, 3299), (3302, 3311), (3313, 3314), (3328, 3340), (3342, 3344),
  (3346, 3396), (3398, 3400), (3402, 3406), (3412, 3415), (3423, 3427), (3430, 3439),
  (3450, 3455), (3457, 3459), (3461, 3478), (3482, 3505), (3507, 3515), (3517, 3517),
  (3520, 3526), (3530, 3530), (3535, 3540), (3542, 3542), (3544, 3551), (3558, 3567),
  (3570, 3571), (3585, 3642), (3648, 3662), (3664, 3673), (3713, 3714), (3716, 3716),
  (3718, 3722), (3724, 3747), (3749, 3749), (3751, 3773), (3776, 3780), (3782, 3782),
  (3784, 3789), (3792, 3801), (3804, 3807), (3840, 3840), (3864, 3865), (3872, 3881),
  (3893, 3893), (3895, 3895), (3897, 3897), (3902, 3911), (3913, 3948), (3953, 3972),
  (3974, 3991), (3993, 4028), (4038, 4038), (4096, 4169), (4176, 4253), (4256, 4293),
  (4295, 4295), (4301, 4301), (4304, 4346), (4348, 4680), (4682, 4685), (4688, 4694),
  (4696, 4696), (4698, 4701), (4704, 4744), (4746, 4749), (4752, 4784), (4786, 4789),
  (4792, 4798), (4800, 4800), (4802, 4805), (4808, 4822), (4824, 4880), (4882, 4885),
  (4888, 4954), (4957, 4959), (4992, 5007), (5024, 5109), (5112, 5117), (5121, 5740),
  (5743, 5759), (5761, 5786), (5792, 5866), (5870, 5880), (5888, 5909), (5919, 5940),
  (5952, 5971), (5984, 5996), (5998, 6000), (6002, 6003), (6016, 6099), (6103, 6103),
  (6108, 6109), (6112, 6121), (6155, 6157), (6159, 6169), (6176, 6264), (6272, 6314),
  (6320, 6389), (6400, 6430), (6432, 6443), (6448, 6459), (6470, 6509), (6512, 6516),
  (6528, 6571), (6576, 6601), (6608, 6617), (6656, 6683), (6688, 6750), (6752, 6780),
  (6783, 6793), (6800, 6809), (6823, 6823), (6832, 6862), (6912, 6988), (6992, 7001),
  (7019, 7027), (7040, 7155), (7168, 7223), (7232, 7241), (7245, 7293), (7296, 7304),
  (7312, 7354), (7357, 7359), (7376, 7378), (7380, 7418), (7424, 7957), (7960, 7965),
  (7968, 8005), (8008, 8013), (8016, 8023), (8025, 8025), (8027, 8027), (8029, 8029),
  (8031, 8061), (8064, 8116), (8118, 8124), (8126, 8126), (8130, 8132), (8134, 8140),
  (8144, 8147), (8150, 8155), (8160, 8172), (8178, 8180), (8182, 8188), (8204, 8205),
  (8255, 8256), (8276, 8276), (8305, 8305), (8319, 8319), (8336, 8348), (8400, 8432),
  (8450, 8450), (8455, 8455), (8458, 8467), (8469, 8469), (8473, 8477), (8484, 8484),
  (8486, 8486), (8488, 8488), (8490, 8493), (8495, 8505), (8508, 8511), (8517, 8521),
  (8526, 8526), (8544, 8584), (11264, 11492), (11499, 11507), (11520, 11557), (11559, 11559),
  (11565, 11565), (11568, 11623), (11631, 11631), (11647, 11670), (11680, 11686), (11688, 11694),
  (11696, 11702), (11704, 11710), (11712, 11718), (11720, 11726), (11728, 11734), (11736, 11742),
  (11744, 11775), (11823, 11823), (12293, 12295), (12321, 12335), (12337, 12341), (12344, 12348),
  (12353, 12438), (12441, 12442), (12445, 12447), (12449, 12538), (12540, 12543), (12549, 12591),
  (12593, 12686), (12704, 12735), (12784, 12799), (13312, 19903), (19968, 42124), (42192, 42237),
  (42240, 42508), (42512, 42539), (42560, 42610), (42612, 42621), (42623, 42737), (42775, 42783),
  (42786, 42888), (42891, 42954), (42960, 42961), (42963, 42963), (42965, 42969), (42994, 43047),
  (43052, 43052), (43072, 43123), (43136, 43205), (43216, 43225), (43232, 43255), (43259, 43259),
  (43261, 43309), (43312, 43347), (43360, 43388), (43392, 43456), (43471, 43481), (43488, 43518),
  (43520, 43574), (43584, 43597), (43600, 43609), (43616, 43638), (43642, 43714), (43739, 43741),
  (43744, 43759), (43762, 43766), (43777, 43782), (43785, 43790), (43793, 43798), (43808, 43814),
  (43816, 43822), (43824, 43866), (43868, 43881), (43888, 44010), (44012, 44013), (44016, 44025),
  (44032, 55203), (55216, 55238), (55243, 55291), (63744, 64109), (64112, 64217), (64256, 64262),
  (64275, 64279), (64285, 64296), (64298, 64310), (64312, 64316), (64318, 64318), (64320, 64321),
  (64323, 64324), (64326, 64433), (64467, 64829), (64848, 64911), (64914, 64967), (65008, 65019),
  (65024, 65039), (65056, 65071), (65075, 65076), (65101, 65103), (65136, 65140), (65142, 65276),
  (65296, 65305), (65313, 65338), (65343, 65343), (65345, 65370), (65382, 65470), (65474, 65479),
  (65482, 65487), (65490, 65495), (65498, 65500), (65536, 65547), (65549, 65574), (65576, 65594),
  (65596, 65597), (65599, 65613), (65616, 65629), (65664, 65786), (65856, 65908), (66045, 66045),
  (66176, 66204), (66208, 66256), (66272, 66272), (66304, 66335), (66349, 66378), (66384, 66426),
  (66432, 66461), (66464, 66499), (66504, 66511), (66513, 66517), (66560, 66717), (66720, 66729),
  (66736, 66771), (66776, 66811), (66816, 66855), (66864, 66915), (66928, 66938), (66940, 66954),
  (66956, 66962), (66964, 66965), (66967, 66977), (66979, 66993), (66995, 67001), (67003, 67004),
  (67072, 67382), (67392, 67413), (67424, 67431), (67456, 67461), (67463, 67504), (67506, 67514),
  (67584, 67589), (67592, 67592), (67594, 67637), (67639, 67640), (67644, 67644), (67647, 67669),
  (67680, 67702), (67712, 67742), (67808, 67826), (67828, 67829), (67840, 67861), (67872, 67897),
  (67968, 68023), (68030, 68031), (68096, 68099), (68101, 68102), (68108, 68115), (68117, 68119),
  (68121, 68149), (68152, 68154), (68159, 68159), (68192, 68220), (68224, 68252), (68288, 68295),
  (68297, 68326), (68352, 68405), (68416, 68437), (68448, 68466), (68480, 68497), (68608, 68680),
  (68736, 68786), (68800, 68850), (68864, 68903), (68912, 68921), (69248, 69289), (69291, 69292),
  (69296, 69297), (69376, 69404), (69415, 69415), (69424, 69456), (69488, 69509), (69552, 69572),
  (69600, 69622), (69632, 69702), (69734, 69749), (69759, 69818), (69826, 69826), (69840, 69864),
  (69872, 69881), (69888, 69940), (69942, 69951), (69956, 69959), (69968, 70003), (70006, 70006),
  (70016, 70084), (70089, 70092), (70094, 70106), (70108, 70108), (70144, 70161), (70163, 70199),
  (70206, 70206), (70272, 70278), (70280, 70280), (70282, 70285), (70287, 70301), (70303, 70312),
  (70320, 70378), (70384, 70393), (70400, 70403), (70405, 70412), (70415, 70416), (70419, 70440),
  (70442, 70448), (70450, 70451), (70453, 70457), (70459, 70468), (70471, 70472), (70475, 70477),
  (70480, 70480), (70487, 70487), (70493, 70499), (70502, 70508), (70512, 70516), (70656, 70730),
  (70736, 70745), (70750, 70753), (70784, 70853), (70855, 70855), (70864, 70873), (71040, 71093),
  (71096, 71104), (71128, 71133), (71168, 71232), (71236, 71236), (71248, 71257), (71296, 71352),
  (71360, 71369), (71424, 71450), (71453, 71467), (71472, 71481), (71488, 71494), (71680, 71738),
  (71840, 71913), (71935, 71942), (71945, 71945), (71948, 71955), (71957, 71958), (71960, 71989),
  (71991, 71992), (71995, 72003), (72016, 72025), (72096, 72103), (72106, 72151), (72154, 72161),
  (72163, 72164), (72192, 72254), (72263, 72263), (72272, 72345), (72349, 72349), (72368, 72440),
  (72704, 72712), (72714, 72758), (72760, 72768), (72784, 72793), (72818, 72847), (72850, 72871),
  (72873, 72886), (72960, 72966), (72968, 72969), (72971, 73014), (73018, 73018), (73020, 73021),
  (73023, 73031), (73040, 73049), (73056, 73061), (73063, 73064), (73066, 73102), (73104, 73105),
  (73107, 73112), (73120, 73129), (73440, 73462), (73648, 73648), (73728, 74649), (74752, 74862),
  (74880, 75075), (77712, 77808), (77824, 78894), (82944, 83526), (92160, 92728), (92736, 92766),
  (92768, 92777), (92784, 92862), (92864, 92873), (92880, 92909), (92912, 92916), (92928, 92982),
  (92992, 92995), (93008, 93017), (93027, 93047), (93053, 93071), (93760, 93823), (93952, 94026),
  (94031, 94087), (94095, 94111), (94176, 94177), (94179, 94180), (94192, 94193), (94208, 100343),
  (100352, 101589), (101632, 101640), (110576, 110579), (110581, 110587), (110589, 110590), (110592, 110882),
  (110928, 110930), (110948, 110951), (110960, 111355), (113664, 113770), (113776, 113788), (113792, 113800),
  (113808, 113817), (113821, 113822), (118528, 118573), (118576, 118598), (119141, 119145), (119149, 119154),
  (119163, 119170), (119173, 119179), (119210, 119213), (119362, 119364), (119808, 119892), (119894, 119964),
  (119966, 119967), (119970, 119970), (119973, 119974), (119977, 119980), (119982, 119993), (119995, 119995),
  (119997, 120003), (120005, 120069), (120071, 120074), (120077, 120084), (120086, 120092), (120094, 120121),
  (120123, 120126), (120128, 120132), (120134, 120134), (120138, 120144), (120146, 120485), (120488, 120512),
  (120514, 120538), (120540, 120570), (120572, 120596), (120598, 120628), (120630, 120654), (120656, 120686),
  (120688, 120712), (120714, 120744), (120746, 120770), (120772, 120779), (120782, 120831), (121344, 121398),
  (121403, 121452), (121461, 121461), (121476, 121476), (121499, 121503), (121505, 121519), (122624, 122654),
  (122880, 122886), (122888, 122904), (122907, 122913), (122915, 122916), (122918, 122922), (123136, 123180),
  (123184, 123197), (123200, 123209), (123214, 123214), (123536, 123566), (123584, 123641), (124896, 124902),
  (124904, 124907), (124909, 124910), (124912, 124926), (124928, 125124), (125136, 125142), (125184, 125259),
  (125264, 125273), (126464, 126467), (126469, 126495), (126497, 126498), (126500, 126500), (126503, 126503),
  (126505, 126514), (126516, 126519), (126521, 126521), (126523, 126523), (126530, 126530), (126535, 126535),
  (126537, 126537), (126539, 126539), (126541, 126543), (126545, 126546), (126548, 126548), (126551, 126551),
  (126553, 126553), (126555, 126555), (126557, 126557), (126559, 126559), (126561, 126562), (126564, 126564),
  (126567, 126570), (126572, 126578), (126580, 126583), (126585, 126588), (126590, 126590), (126592, 126601),
  (126603, 126619), (126625, 126627), (126629, 126633), (126635, 126651), (130032, 130041), (131072, 173791),
  (173824, 177976), (177984, 178205), (178208, 183969), (183984, 191456), (194560, 195101), (196608, 201546),
  (917760, 917999)
]

/-- The regex crate's character class `\w`: Unicode word character. -/
def isWordChar (c : Char) : Bool :=
  if c.toNat < 128 then isAsciiWordChar c
  else nonAsciiWordRanges.any fun r => r.1 ≤ c.toNat && c.toNat ≤ r.2

end RustCC

namespace RustCC

/-- The kind of a lexeme, LexemeKind of lexer.rs; the borrowed string
payloads are modelled as lists of characters. -/
inductive LexemeKind where
  | Whitespace (s : List Char)
  | OpenBrace
  | CloseBrace
  | OpenParen
  | CloseParen
  | Semicolon
  | Keyword (s : List Char)
  | Identifier (s : List Char)
  | IntLiteral (n : Int)
deriving DecidableEq

/-- A lexeme together with the line and column of its first character. -/
structure Lexeme where
  kind : LexemeKind
  line : Nat
  column : Nat
deriving DecidableEq

/-- The structured error of the lexer. -/
inductive LexError where
  | UnrecognizedInput (line : Nat) (column : Nat)
deriving DecidableEq

/-- Outcome of lex_str.  Rust's lex_str returns Result; the extra
panicked outcome models a panic raised inside a transformer
(integer-literal overflow in parse().unwrap(), or the unreachable arm
of convert_symbol_str), on which the Rust function returns nothing. -/
inductive LexResult where
  | ok (tokens : List Lexeme)
  | err (e : LexError)
  | panicked
deriving DecidableEq

/-- The KEYWORDS set. -/
def KEYWORDS : List (List Char) := ["return".data, "int".data]

/-- convert_identifier_str: reclassify an identifier span as a keyword
exactly when it is in KEYWORDS. -/
def convert_identifier_str (identifier : List Char) : LexemeKind :=
  if KEYWORDS.contains identifier then LexemeKind.Keyword identifier
  else LexemeKind.Identifier identifier

/-- convert_symbol_str; its unreachable panic arm is modelled as none. -/
def convert_symbol_str (symbol : List Char) : Option LexemeKind :=
  if symbol = ['{'] then some LexemeKind.OpenBrace
  else if symbol = ['}'] then some LexemeKind.CloseBrace
  else if symbol = ['('] then some LexemeKind.OpenParen
  else if symbol = [')'] then some LexemeKind.CloseParen
  else if symbol = [';'] then some LexemeKind.Semicolon
  else none

/-- Decimal value of a run of ASCII digits. -/
def decValue (s : List Char) : Nat :=
  s.foldl (fun n c => n * 10 + (c.toNat - 48)) 0

/-- Models str::parse on strings of ASCII digits, as i32: the parse
succeeds exactly when the decimal value fits in a 32-bit signed integer. -/
def parseI32 (s : List Char) : Option Int :=
  if s.isEmpty then none
  else if decValue s ≤ 2147483647 then some (Int.ofNat (decValue s)) else none

/-- find for WHITESPACE_REGEX: the longest nonempty whitespace run at the
start of the input. -/
def whitespaceFind (s : List Char) : Option (List Char) :=
  let m := s.takeWhile isRustWhitespace
  if m.isEmpty then none else some m

/-- find for IDENTIFIER_REGEX: one ASCII letter then the longest run of
word characters. -/
def identifierFind : List Char → Option (List Char)
  | [] => none
  | c :: t => if isAsciiLetter c then some (c :: t.takeWhile isWordChar) else none

/-- find for SYMBOL_REGEX: a single symbol character at the start. -/
def symbolFind : List Char → Option (List Char)
  | [] => none
  | c :: _ => if isSymbolChar c then some [c] else none

/-- find for INT_LITERAL_REGEX: the longest nonempty digit run at the
start of the input. -/
def intLiteralFind (s : List Char) : Option (List Char) :=
  let m := s.takeWhile Char.isDigit
  if m.isEmpty then none else some m

/-- try_get: on a match, return the rest of the input past the match, the
matched text, and the transformed kind; the inner Option records a
transformer panic. -/
def try_get (current_input : List Char) (find : List Char → Option (List Char))
    (transformer : List Char → Option LexemeKind) :
    Option (List Char × List Char × Option LexemeKind) :=
  match find current_input with
  | some matched => some (current_input.drop matched.length, matched, transformer matched)
  | none => none

/-- get_next_token: try the recognizers in the fixed order whitespace,
identifier-or-keyword, symbol, integer literal, returning the first match. -/
def get_next_token (current_input : List Char) :
    Option (List Char × List Char × Option LexemeKind) :=
  (try_get current_input whitespaceFind fun s => some (LexemeKind.Whitespace s)).orElse fun _ =>
  (try_get current_input identifierFind fun s => some (convert_identifier_str s)).orElse fun _ =>
  (try_get current_input symbolFind convert_symbol_str).orElse fun _ =>
  try_get current_input intLiteralFind fun s => (parseI32 s).map fun n => LexemeKind.IntLiteral n

/-- find for AFTER_LAST_NEWLINE_REGEX: when the consumed text contains a
newline, the match is the last newline together with every character
after it. -/
def afterLastNewlineMatch : List Char → Option (List Char)
  | [] => none
  | c :: t =>
    match afterLastNewlineMatch t with
    | some m => some m
    | none => if c = '\n' then some (c :: t) else none

/-- The position update of lex_str: count the newlines in the consumed
text; with no newline, advance the column by the consumed UTF-8 byte
length; otherwise reset the column to 1 and add the byte length of the
AFTER_LAST_NEWLINE_REGEX match. -/
def advancePosition (line column : Nat) (consumed : List Char) : Nat × Nat :=
  let lineChangeCount := consumed.count '\n'
  let line' := line + lineChangeCount
  if lineChangeCount > 0 then
    match afterLastNewlineMatch consumed with
    | some m => (line', 1 + utf8Length m)
    | none => (line', 1)
  else (line', column + utf8Length consumed)

/-- The append of the driver loop: skip a whitespace lexeme, append any
other kind tagged with the position captured before consumption. -/
def pushToken (acc : List Lexeme) (kind : LexemeKind) (line column : Nat) : List Lexeme :=
  match kind with
  | LexemeKind.Whitespace _ => acc
  | _ => acc ++ [⟨kind, line, column⟩]

/-- The driver loop of lex_str, with an explicit bound on the number of
iterations; every bound above the length of the remainder gives the same
value, the loop's true result (lexLoop_fuel_irrelevant below). -/
def lexLoop : Nat → List Char → Nat → Nat → List Lexeme → LexResult
  | 0, current_input, line, column, acc =>
    if current_input.isEmpty then LexResult.ok acc
    else LexResult.err (LexError.UnrecognizedInput line column)
  | fuel + 1, current_input, line, column, acc =>
    match get_next_token current_input with
    | some (new_input, consumed_input, kindOpt) =>
      match kindOpt with
      | none => LexResult.panicked
      | some kind =>
        let p := advancePosition line column consumed_input
        lexLoop fuel new_input p.1 p.2 (pushToken acc kind line column)
    | none =>
      if current_input.isEmpty then LexResult.ok acc
      else LexResult.err (LexError.UnrecognizedInput line column)

/-- lex_str: tokenize the whole input, starting at line 1, column 1. -/
def lex_str (input : List Char) : LexResult :=
  lexLoop (input.length + 1) input 1 1 []

end RustCC

namespace RustCC

/-- The consumption of the driver loop without token building: repeatedly
apply get_next_token, returning the unconsumed remainder and the position
cursor at the point where no recognizer matches.  This is the maximal
prefix consumption the specification describes. -/
def consumeAll : Nat → List Char → Nat → Nat → List Char × Nat × Nat
  | 0, s, line, column => (s, line, column)
  | fuel + 1, s, line, column =>
    match get_next_token s with
    | some (r, consumed, _) =>
      let p := advancePosition line column consumed
      consumeAll fuel r p.1 p.2
    | none => (s, line, column)

/-- The spans consumed by the driver loop, in order: the matched spans of
the emitted tokens together with the discarded whitespace spans. -/
def lexTraceAux : Nat → List Char → List (List Char)
  | 0, _ => []
  | fuel + 1, s =>
    match get_next_token s with
    | some (r, consumed, _) => consumed :: lexTraceAux fuel r
    | none => []

/-- The spans consumed when lexing an input from the start. -/
def lexTrace (s : List Char) : List (List Char) :=
  lexTraceAux (s.length + 1) s

/-- Bounded-iteration helper for digitRuns. -/
def digitRunsAux : Nat → List Char → List (List Char)
  | 0, _ => []
  | _ + 1, [] => []
  | fuel + 1, c :: t =>
    if c.isDigit then
      (c :: t.takeWhile Char.isDigit) :: digitRunsAux fuel (t.dropWhile Char.isDigit)
    else digitRunsAux fuel t

/-- The maximal runs of consecutive ASCII digits of a string, in order. -/
def digitRuns (s : List Char) : List (List Char) :=
  digitRunsAux (s.length + 1) s

/-- Dropping the length of a takeWhile is dropWhile. -/
theorem drop_length_takeWhile (p : Char → Bool) :
    ∀ l : List Char, l.drop (l.takeWhile p).length = l.dropWhile p
  | [] => rfl
  | a :: l => by
    by_cases h : p a
    · simp [List.takeWhile_cons, List.dropWhile_cons, h, drop_length_takeWhile p l]
    · simp [List.takeWhile_cons, List.dropWhile_cons, h]

/-- dropWhile never lengthens a list. -/
theorem length_dropWhile_le (p : Char → Bool) :
    ∀ l : List Char, (l.dropWhile p).length ≤ l.length
  | [] => Nat.le_refl _
  | a :: l => by
    by_cases h : p a
    · simp only [List.dropWhile_cons, h, if_pos]
      exact Nat.le_trans (length_dropWhile_le p l) (Nat.le_succ _)
    · simp [List.dropWhile_cons, h]

/-- The bound in digitRunsAux does not matter once it exceeds the length. -/
theorem digitRunsAux_irrel :
    ∀ f₁ f₂ : Nat, ∀ s : List Char, s.length < f₁ → s.length < f₂ →
      digitRunsAux f₁ s = digitRunsAux f₂ s
  | _ + 1, _ + 1, [], _, _ => rfl
  | f₁ + 1, f₂ + 1, c :: t, h₁, h₂ => by
    by_cases hc : c.isDigit
    · simp only [digitRunsAux, hc, if_pos, List.cons.injEq, true_and]
      refine digitRunsAux_irrel f₁ f₂ (t.dropWhile Char.isDigit) ?_ ?_
      · exact Nat.lt_of_le_of_lt (length_dropWhile_le _ t) (Nat.lt_of_succ_lt_succ h₁)
      · exact Nat.lt_of_le_of_lt (length_dropWhile_le _ t) (Nat.lt_of_succ_lt_succ h₂)
    · simp only [digitRunsAux, hc, if_neg, Bool.false_eq_true, not_false_iff]
      exact digitRunsAux_irrel f₁ f₂ t (Nat.lt_of_succ_lt_succ h₁) (Nat.lt_of_succ_lt_succ h₂)

/-- digitRuns on a string headed by a digit: the head run, then the rest. -/
theorem digitRuns_cons_digit {c : Char} {t : List Char} (hc : c.isDigit = true) :
    digitRuns (c :: t) =
      (c :: t.takeWhile Char.isDigit) :: digitRuns (t.dropWhile Char.isDigit) := by
  show digitRunsAux (t.length + 2) (c :: t) = _
  simp only [digitRunsAux, hc, if_pos, digitRuns, List.cons.injEq, true_and]
  exact digitRunsAux_irrel _ _ _ (Nat.lt_succ_of_le (length_dropWhile_le _ t))
    (Nat.lt_succ_self _)

/-- digitRuns skips a non-digit head. -/
theorem digitRuns_cons_nondigit {c : Char} {t : List Char} (hc : ¬c.isDigit = true) :
    digitRuns (c :: t) = digitRuns t := by
  show digitRunsAux (t.length + 2) (c :: t) = _
  simp only [digitRunsAux, hc, if_neg, not_false_iff, digitRuns]
  exact digitRunsAux_irrel _ _ _ (Nat.lt_succ_self _) (Nat.lt_succ_self _)

/-- Elimination for a successful try_get: the pattern matched, the match is
the consumed text, the remainder drops it, the kind is its transform. -/
theorem try_get_spec {s r c : List Char} {k : Option LexemeKind}
    {f : List Char → Option (List Char)} {tr : List Char → Option LexemeKind}
    (h : try_get s f tr = some (r, c, k)) :
    f s = some c ∧ r = s.drop c.length ∧ k = tr c := by
  unfold try_get at h
  cases hf : f s with
  | none => rw [hf] at h; exact absurd h (by simp)
  | some m =>
    rw [hf] at h
    simp only [Option.some.injEq, Prod.mk.injEq] at h
    obtain ⟨rfl, rfl, rfl⟩ := h
    exact ⟨rfl, rfl, rfl⟩

/-- A whitespace match is the nonempty whitespace run at the start. -/
theorem whitespaceFind_spec {s m : List Char} (h : whitespaceFind s = some m) :
    m = s.takeWhile isRustWhitespace ∧ m ≠ [] := by
  unfold whitespaceFind at h
  by_cases he : (s.takeWhile isRustWhitespace).isEmpty <;> simp [he] at h
  subst h
  exact ⟨rfl, by simpa [List.isEmpty_iff] using he⟩

/-- An identifier match is an ASCII letter then the word-character run. -/
theorem identifierFind_spec {s m : List Char} (h : identifierFind s = some m) :
    ∃ a t, s = a :: t ∧ isAsciiLetter a = true ∧ m = a :: t.takeWhile isWordChar := by
  match s with
  | [] => exact absurd h (by simp [identifierFind])
  | a :: t =>
    by_cases ha : isAsciiLetter a <;> simp [identifierFind, ha] at h
    exact ⟨a, t, rfl, ha, h.symm⟩

/-- A symbol match is a single symbol character. -/
theorem symbolFind_spec {s m : List Char} (h : symbolFind s = some m) :
    ∃ a t, s = a :: t ∧ isSymbolChar a = true ∧ m = [a] := by
  match s with
  | [] => exact absurd h (by simp [symbolFind])
  | a :: t =>
    by_cases ha : isSymbolChar a <;> simp [symbolFind, ha] at h
    exact ⟨a, t, rfl, ha, h.symm⟩

/-- An integer-literal match is the nonempty digit run at the start. -/
theorem intLiteralFind_spec {s m : List Char} (h : intLiteralFind s = some m) :
    m = s.takeWhile Char.isDigit ∧ m ≠ [] := by
  unfold intLiteralFind at h
  by_cases he : (s.takeWhile Char.isDigit).isEmpty <;> simp [he] at h
  subst h
  exact ⟨rfl, by simpa [List.isEmpty_iff] using he⟩

/-- Case analysis for a successful get_next_token: which recognizer
matched, what it consumed, what remains, and the produced kind. -/
theorem get_next_token_spec {s r c : List Char} {k : Option LexemeKind}
    (h : get_next_token s = some (r, c, k)) :
    (c = s.takeWhile isRustWhitespace ∧ c ≠ [] ∧ r = s.dropWhile isRustWhitespace ∧
      k = some (LexemeKind.Whitespace c)) ∨
    (∃ a t, s = a :: t ∧ isAsciiLetter a = true ∧ c = a :: t.takeWhile isWordChar ∧
      r = t.dropWhile isWordChar ∧ k = some (convert_identifier_str c)) ∨
    (∃ a t, s = a :: t ∧ isSymbolChar a = true ∧ c = [a] ∧ r = t ∧
      k = convert_symbol_str c) ∨
    (c = s.takeWhile Char.isDigit ∧ c ≠ [] ∧ r = s.dropWhile Char.isDigit ∧
      k = (parseI32 c).map fun n => LexemeKind.IntLiteral n) := by
  unfold get_next_token at h
  cases hw : try_get s whitespaceFind fun s => some (LexemeKind.Whitespace s) with
  | some x =>
    rw [hw] at h
    replace h : x = (r, c, k) := by simpa [Option.orElse] using h
    subst h
    obtain ⟨h1, h2, h3⟩ := try_get_spec hw
    obtain ⟨hm, hne⟩ := whitespaceFind_spec h1
    refine Or.inl ⟨hm, hne, ?_, h3⟩
    rw [h2, hm, drop_length_takeWhile]
  | none =>
    rw [hw] at h
    simp only [Option.orElse] at h
    cases hi : try_get s identifierFind fun s => some (convert_identifier_str s) with
    | some x =>
      rw [hi] at h
      replace h : x = (r, c, k) := by simpa [Option.orElse] using h
      subst h
      obtain ⟨h1, h2, h3⟩ := try_get_spec hi
      obtain ⟨a, t, hs, ha, hm⟩ := identifierFind_spec h1
      refine Or.inr (Or.inl ⟨a, t, hs, ha, hm, ?_, h3⟩)
      rw [h2, hs, hm]
      simp only [List.length_cons, List.drop_succ_cons]
      rw [drop_length_takeWhile]
    | none =>
      rw [hi] at h
      simp only [Option.orElse] at h
      cases hy : try_get s symbolFind convert_symbol_str with
      | some x =>
        rw [hy] at h
        replace h : x = (r, c, k) := by simpa [Option.orElse] using h
        subst h
        obtain ⟨h1, h2, h3⟩ := try_get_spec hy
        obtain ⟨a, t, hs, ha, hm⟩ := symbolFind_spec h1
        refine Or.inr (Or.inr (Or.inl ⟨a, t, hs, ha, hm, ?_, h3⟩))
        rw [h2, hs, hm]
        rfl
      | none =>
        rw [hy] at h
        simp only [Option.orElse] at h
        obtain ⟨h1, h2, h3⟩ := try_get_spec h
        obtain ⟨hm, hne⟩ := intLiteralFind_spec h1
        refine Or.inr (Or.inr (Or.inr ⟨hm, hne, ?_, h3⟩))
        rw [h2, hm, drop_length_takeWhile]

/-- Progress: a successful get_next_token consumes a nonempty span that is
an initial segment of the input, and strictly shrinks the remainder. -/
theorem get_next_token_progress {s r c : List Char} {k : Option LexemeKind}
    (h : get_next_token s = some (r, c, k)) :
    c ≠ [] ∧ s = c ++ r ∧ r.length < s.length := by
  have hsplit : c ≠ [] ∧ s = c ++ r := by
    rcases get_next_token_spec h with ⟨hm, hne, hr, _⟩ | ⟨a, t, hs, _, hm, hr, _⟩ |
      ⟨a, t, hs, _, hm, hr, _⟩ | ⟨hm, hne, hr, _⟩
    · exact ⟨hne, by rw [hm, hr, List.takeWhile_append_dropWhile]⟩
    · refine ⟨by simp [hm], ?_⟩
      rw [hs, hm, hr]
      simp [List.takeWhile_append_dropWhile]
    · exact ⟨by simp [hm], by rw [hs, hm, hr]; rfl⟩
    · exact ⟨hne, by rw [hm, hr, List.takeWhile_append_dropWhile]⟩
  refine ⟨hsplit.1, hsplit.2, ?_⟩
  rw [hsplit.2, List.length_append]
  have : 0 < c.length := List.length_pos.mpr hsplit.1
  omega

end RustCC

namespace RustCC

/-- Membership after a pushToken: either an old token, or a token whose
kind is not Whitespace. -/
theorem pushToken_mem {acc : List Lexeme} {kind : LexemeKind} {l c : Nat} {t : Lexeme}
    (h : t ∈ pushToken acc kind l c) :
    t ∈ acc ∨ ∀ w, t.kind ≠ LexemeKind.Whitespace w := by
  cases kind <;> simp only [pushToken, List.mem_append, List.mem_singleton] at h
  case Whitespace s => exact Or.inl h
  all_goals
    rcases h with h | rfl
    · exact Or.inl h
    · exact Or.inr (by intro w; simp)

/-- An error result of the loop is UnrecognizedInput at the stuck position
of the maximal consumption, whose remainder is nonempty. -/
theorem lexLoop_err_spec :
    ∀ (f : Nat) (s : List Char) (l c : Nat) (acc : List Lexeme) (e : LexError),
      lexLoop f s l c acc = LexResult.err e →
      ∃ r l' c', consumeAll f s l c = (r, l', c') ∧ r ≠ [] ∧
        e = LexError.UnrecognizedInput l' c'
  | 0, s, l, c, acc, e, h => by
    by_cases hs : s.isEmpty
    · simp [lexLoop, hs] at h
    · refine ⟨s, l, c, rfl, by simpa [List.isEmpty_iff] using hs, ?_⟩
      simp [lexLoop, hs] at h
      exact h.symm
  | f + 1, s, l, c, acc, e, h => by
    cases hg : get_next_token s with
    | some x =>
      obtain ⟨r0, consumed, kindOpt⟩ := x
      cases kindOpt with
      | none => simp [lexLoop, hg] at h
      | some kind =>
        simp only [lexLoop, hg] at h
        obtain ⟨r, l', c', hca, hr, he⟩ := lexLoop_err_spec f r0 _ _ _ e h
        exact ⟨r, l', c', by simp only [consumeAll, hg]; exact hca, hr, he⟩
    | none =>
      by_cases hs : s.isEmpty
      · simp [lexLoop, hg, hs] at h
      · simp only [lexLoop, hg, if_neg hs, LexResult.err.injEq] at h
        exact ⟨s, l, c, by simp [consumeAll, hg], by simpa [List.isEmpty_iff] using hs, h.symm⟩

/-- Conversely: a nonempty stuck remainder forces the loop to fail, either
by panic or with UnrecognizedInput at the stuck position. -/
theorem lexLoop_of_consumeAll_ne :
    ∀ (f : Nat) (s : List Char) (l c : Nat) (acc : List Lexeme) (r : List Char) (l' c' : Nat),
      consumeAll f s l c = (r, l', c') → r ≠ [] →
      lexLoop f s l c acc = LexResult.panicked ∨
        lexLoop f s l c acc = LexResult.err (LexError.UnrecognizedInput l' c')
  | 0, s, l, c, acc, r, l', c', hca, hr => by
    simp only [consumeAll, Prod.mk.injEq] at hca
    obtain ⟨rfl, rfl, rfl⟩ := hca
    right
    simp [lexLoop, List.isEmpty_iff, hr]
  | f + 1, s, l, c, acc, r, l', c', hca, hr => by
    cases hg : get_next_token s with
    | some x =>
      obtain ⟨r0, consumed, kindOpt⟩ := x
      simp only [consumeAll, hg] at hca
      cases kindOpt with
      | none => left; simp [lexLoop, hg]
      | some kind =>
        simp only [lexLoop, hg]
        exact lexLoop_of_consumeAll_ne f r0 _ _ _ r l' c' hca hr
    | none =>
      simp only [consumeAll, hg, Prod.mk.injEq] at hca
      obtain ⟨rfl, rfl, rfl⟩ := hca
      right
      simp [lexLoop, hg, List.isEmpty_iff, hr]

/-- A successful result of the loop means the whole input was consumed,
and every token is either inherited or not a whitespace token. -/
theorem lexLoop_ok_spec :
    ∀ (f : Nat) (s : List Char) (l c : Nat) (acc : List Lexeme) (ts : List Lexeme),
      lexLoop f s l c acc = LexResult.ok ts →
      (consumeAll f s l c).1 = [] ∧
        ∀ t ∈ ts, t ∈ acc ∨ ∀ w, t.kind ≠ LexemeKind.Whitespace w
  | 0, s, l, c, acc, ts, h => by
    by_cases hs : s.isEmpty
    · simp only [lexLoop, if_pos hs] at h
      obtain rfl : acc = ts := by simpa using h
      exact ⟨by simpa [consumeAll, List.isEmpty_iff] using hs, fun t ht => Or.inl ht⟩
    · simp [lexLoop, hs] at h
  | f + 1, s, l, c, acc, ts, h => by
    cases hg : get_next_token s with
    | some x =>
      obtain ⟨r0, consumed, kindOpt⟩ := x
      cases kindOpt with
      | none => simp [lexLoop, hg] at h
      | some kind =>
        simp only [lexLoop, hg] at h
        obtain ⟨hres, htok⟩ := lexLoop_ok_spec f r0 _ _ _ ts h
        refine ⟨by simp only [consumeAll, hg]; exact hres, fun t ht => ?_⟩
        rcases htok t ht with hmem | hnw
        · exact pushToken_mem hmem
        · exact Or.inr hnw
    | none =>
      by_cases hs : s.isEmpty
      · simp only [lexLoop, hg, if_pos hs] at h
        obtain rfl : acc = ts := by simpa using h
        exact ⟨by simpa [consumeAll, hg, List.isEmpty_iff] using hs, fun t ht => Or.inl ht⟩
      · simp [lexLoop, hg, hs] at h

/-- The consumed spans concatenated with the stuck remainder give back the
input. -/
theorem lexTraceAux_join :
    ∀ (f : Nat) (s : List Char) (l c : Nat),
      (lexTraceAux f s).flatten ++ (consumeAll f s l c).1 = s
  | 0, s, l, c => by simp [lexTraceAux, consumeAll]
  | f + 1, s, l, c => by
    cases hg : get_next_token s with
    | some x =>
      obtain ⟨r0, consumed, kindOpt⟩ := x
      have hp := get_next_token_progress hg
      simp only [lexTraceAux, consumeAll, hg, List.flatten_cons, List.append_assoc]
      rw [lexTraceAux_join f r0 _ _]
      exact hp.2.1.symm
    | none => simp [lexTraceAux, consumeAll, hg]

/-- Any bound above the remainder's length gives the same loop result. -/
theorem lexLoop_fuel_irrel :
    ∀ (f₁ f₂ : Nat) (s : List Char) (l c : Nat) (acc : List Lexeme),
      s.length < f₁ → s.length < f₂ → lexLoop f₁ s l c acc = lexLoop f₂ s l c acc
  | 0, _, s, _, _, _, h₁, _ => absurd h₁ (Nat.not_lt_zero _)
  | _ + 1, 0, s, _, _, _, _, h₂ => absurd h₂ (Nat.not_lt_zero _)
  | f₁ + 1, f₂ + 1, s, l, c, acc, h₁, h₂ => by
    cases hg : get_next_token s with
    | some x =>
      obtain ⟨r0, consumed, kindOpt⟩ := x
      have hp := get_next_token_progress hg
      cases kindOpt with
      | none => simp [lexLoop, hg]
      | some kind =>
        simp only [lexLoop, hg]
        exact lexLoop_fuel_irrel f₁ f₂ r0 _ _ _
          (Nat.lt_of_lt_of_le hp.2.2 (Nat.lt_succ_iff.mp h₁))
          (Nat.lt_of_lt_of_le hp.2.2 (Nat.lt_succ_iff.mp h₂))
    | none => simp [lexLoop, hg]

end RustCC

namespace RustCC

/-- Every maximal digit run of the input has a value that fits in i32. -/
def runsFit (s : List Char) : Prop :=
  ∀ run ∈ digitRuns s, decValue run ≤ 2147483647

/-- isDigit in terms of the scalar value. -/
theorem isDigit_toNat {ch : Char} : ch.isDigit = true ↔ (48 ≤ ch.toNat ∧ ch.toNat ≤ 57) := by
  simp only [Char.isDigit, Bool.and_eq_true, decide_eq_true_eq, ge_iff_le]
  exact Iff.rfl

/-- Whitespace characters are not digits. -/
theorem ws_not_digit {ch : Char} (h : isRustWhitespace ch = true) :
    ch.isDigit = false := by
  have hn : (ch.toNat = 9 ∨ ch.toNat = 10 ∨ ch.toNat = 11 ∨ ch.toNat = 12 ∨ ch.toNat = 13 ∨
      ch.toNat = 32 ∨ ch.toNat = 133 ∨ ch.toNat = 160 ∨ ch.toNat = 5760 ∨ ch.toNat = 8232 ∨
      ch.toNat = 8233 ∨ ch.toNat = 8239 ∨ ch.toNat = 8287 ∨ ch.toNat = 12288) ∨
      (8192 ≤ ch.toNat ∧ ch.toNat ≤ 8202) := by
    simpa [isRustWhitespace, List.elem_iff] using h
  cases hd : ch.isDigit
  · rfl
  · exfalso
    obtain ⟨h1, h2⟩ := isDigit_toNat.mp hd
    rcases hn with (h3|h3|h3|h3|h3|h3|h3|h3|h3|h3|h3|h3|h3|h3) | ⟨h3, h4⟩ <;> omega

/-- Symbol characters are not digits. -/
theorem sym_not_digit {ch : Char} (h : isSymbolChar ch = true) :
    ch.isDigit = false := by
  have hn : ch = '(' ∨ ch = ')' ∨ ch = '{' ∨ ch = '}' ∨ ch = ';' := by
    simpa [isSymbolChar, List.elem_iff] using h
  rcases hn with rfl | rfl | rfl | rfl | rfl <;> rfl

/-- ASCII letters are not digits. -/
theorem letter_not_digit {ch : Char} (h : isAsciiLetter ch = true) :
    ch.isDigit = false := by
  have hn : (97 ≤ ch.toNat ∧ ch.toNat ≤ 122) ∨ (65 ≤ ch.toNat ∧ ch.toNat ≤ 90) := by
    simpa [isAsciiLetter, Bool.or_eq_true, Bool.and_eq_true, decide_eq_true_eq] using h
  cases hd : ch.isDigit
  · rfl
  · exfalso
    obtain ⟨h1, h2⟩ := isDigit_toNat.mp hd
    rcases hn with ⟨a1, a2⟩ | ⟨a1, a2⟩ <;> omega

/-- Digits are word characters. -/
theorem digit_isWordChar {ch : Char} (h : ch.isDigit = true) : isWordChar ch = true := by
  obtain ⟨h1, h2⟩ := isDigit_toNat.mp h
  simp only [isWordChar]
  rw [if_pos (show ch.toNat < 128 by omega)]
  simp [isAsciiWordChar, h]

/-- digitRuns ignores a prefix with no digit in it. -/
theorem digitRuns_append_nondigit :
    ∀ (pre x : List Char), (∀ ch ∈ pre, ch.isDigit = false) →
      digitRuns (pre ++ x) = digitRuns x
  | [], x, _ => rfl
  | a :: pre, x, h => by
    rw [List.cons_append, digitRuns_cons_nondigit (by simp [h a (List.mem_cons_self a pre)])]
    exact digitRuns_append_nondigit pre x fun ch hc => h ch (List.mem_cons_of_mem a hc)

/-- dropWhile skips over a prefix every character of which satisfies p. -/
theorem dropWhile_append_all (p : Char → Bool) :
    ∀ (pre x : List Char), (∀ ch ∈ pre, p ch = true) →
      (pre ++ x).dropWhile p = x.dropWhile p
  | [], x, _ => rfl
  | a :: pre, x, h => by
    rw [List.cons_append, List.dropWhile_cons, if_pos (h a (List.mem_cons_self a pre))]
    exact dropWhile_append_all p pre x fun ch hc => h ch (List.mem_cons_of_mem a hc)

/-- Dropping word characters from the front of a string can only remove
whole maximal digit runs, never cut into one. -/
theorem digitRuns_dropWhile_word :
    ∀ (n : Nat) (t : List Char), t.length ≤ n →
      digitRuns (t.dropWhile isWordChar) ⊆ digitRuns t
  | 0, [], _ => by simp
  | 0, a :: t, h => by simp at h
  | n + 1, [], _ => by simp
  | n + 1, b :: t, h => by
    cases hw : isWordChar b with
    | false =>
      rw [List.dropWhile_cons, if_neg (by simp [hw])]
      exact fun x hx => hx
    | true =>
      rw [List.dropWhile_cons, if_pos hw]
      cases hd : b.isDigit with
      | true =>
        rw [digitRuns_cons_digit hd]
        have hsplit : t = t.takeWhile Char.isDigit ++ t.dropWhile Char.isDigit :=
          (List.takeWhile_append_dropWhile Char.isDigit t).symm
        have hall : ∀ ch ∈ t.takeWhile Char.isDigit, isWordChar ch = true := fun ch hc =>
          digit_isWordChar (List.mem_takeWhile_imp hc)
        have hdw : t.dropWhile isWordChar =
            (t.dropWhile Char.isDigit).dropWhile isWordChar := by
          conv_lhs => rw [hsplit]
          exact dropWhile_append_all isWordChar _ _ hall
        rw [hdw]
        have hlen : (t.dropWhile Char.isDigit).length ≤ n :=
          Nat.le_trans (length_dropWhile_le _ t) (Nat.le_of_succ_le_succ h)
        exact fun x hx =>
          List.mem_cons_of_mem _ (digitRuns_dropWhile_word n (t.dropWhile Char.isDigit) hlen hx)
      | false =>
        rw [digitRuns_cons_nondigit (by simp [hd])]
        exact digitRuns_dropWhile_word n t (Nat.le_of_succ_le_succ h)

/-- A symbol character always converts to a symbol lexeme, never to the
unreachable arm. -/
theorem convert_symbol_str_total {a : Char} (h : isSymbolChar a = true) :
    ∃ k, convert_symbol_str [a] = some k := by
  have hn : a = '(' ∨ a = ')' ∨ a = '{' ∨ a = '}' ∨ a = ';' := by
    simpa [isSymbolChar, List.elem_iff] using h
  rcases hn with rfl | rfl | rfl | rfl | rfl <;> exact ⟨_, rfl⟩

/-- convert_symbol_str never produces an integer literal. -/
theorem convert_symbol_str_ne_int {m : List Char} {v : Int} :
    convert_symbol_str m ≠ some (LexemeKind.IntLiteral v) := by
  unfold convert_symbol_str
  split
  · simp
  · split
    · simp
    · split
      · simp
      · split
        · simp
        · split <;> simp

end RustCC

namespace RustCC

/-- When the input starts with a digit, its first maximal digit run is the
takeWhile run and the remaining runs are those of the dropWhile remainder. -/
theorem digitRuns_head_run {s : List Char} (hne : s.takeWhile Char.isDigit ≠ []) :
    digitRuns s = (s.takeWhile Char.isDigit) :: digitRuns (s.dropWhile Char.isDigit) := by
  match s with
  | [] => simp at hne
  | a :: t =>
    by_cases ha : a.isDigit
    · rw [digitRuns_cons_digit ha]
      simp [List.takeWhile_cons, List.dropWhile_cons, ha]
    · rw [List.takeWhile_cons, if_neg (by simp [ha])] at hne
      exact absurd rfl hne

/-- One driver step preserves the fitting of all digit runs and never
panics on such inputs. -/
theorem get_next_token_preserves_runsFit {s r c : List Char} {k : Option LexemeKind}
    (hg : get_next_token s = some (r, c, k)) (hfit : runsFit s) :
    runsFit r ∧ k ≠ none := by
  rcases get_next_token_spec hg with ⟨hm, hne, hr, hk⟩ | ⟨a, t, hs, ha, hm, hr, hk⟩ |
    ⟨a, t, hs, ha, hm, hr, hk⟩ | ⟨hm, hne, hr, hk⟩
  · refine ⟨fun run hrun => hfit run ?_, by simp [hk]⟩
    have hsplit : s = c ++ r := (get_next_token_progress hg).2.1
    rw [hsplit, digitRuns_append_nondigit c r ?_]
    · exact hrun
    · intro ch hch
      exact ws_not_digit (List.mem_takeWhile_imp (hm ▸ hch))
  · refine ⟨fun run hrun => hfit run ?_, by simp [hk]⟩
    rw [hs, digitRuns_cons_nondigit (by simp [letter_not_digit ha])]
    exact digitRuns_dropWhile_word t.length t (Nat.le_refl _) (hr ▸ hrun)
  · refine ⟨fun run hrun => hfit run ?_, ?_⟩
    · rw [hs, digitRuns_cons_nondigit (by simp [sym_not_digit ha])]
      exact hr ▸ hrun
    · rw [hk, hm]
      obtain ⟨k', hk'⟩ := convert_symbol_str_total ha
      simp [hk']
  · have hruns : digitRuns s = c :: digitRuns r := by
      rw [digitRuns_head_run (by rw [← hm]; exact hne), ← hm, ← hr]
    refine ⟨fun run hrun => hfit run ?_, ?_⟩
    · rw [hruns]
      exact List.mem_cons_of_mem _ hrun
    · have hc : decValue c ≤ 2147483647 := hfit c (by rw [hruns]; exact List.mem_cons_self _ _)
      rw [hk]
      simp [parseI32, List.isEmpty_iff, hne, hc]

/-- The loop never panics when every maximal digit run of the remainder
fits in i32. -/
theorem lexLoop_no_panic :
    ∀ (f : Nat) (s : List Char) (l c : Nat) (acc : List Lexeme),
      runsFit s → lexLoop f s l c acc ≠ LexResult.panicked
  | 0, s, l, c, acc, _ => by
    by_cases hs : s.isEmpty <;> simp [lexLoop, hs]
  | f + 1, s, l, c, acc, hfit => by
    cases hg : get_next_token s with
    | some x =>
      obtain ⟨r0, consumed, kindOpt⟩ := x
      obtain ⟨hfit', hk⟩ := get_next_token_preserves_runsFit hg hfit
      cases kindOpt with
      | none => exact absurd rfl hk
      | some kind =>
        simp only [lexLoop, hg]
        exact lexLoop_no_panic f r0 _ _ _ hfit'
    | none => by_cases hs : s.isEmpty <;> simp [lexLoop, hg, hs]

/-- Only the integer-literal rule emits IntLiteral, and the value carried
is the decimal value of the consumed digit run. -/
theorem get_next_token_intLiteral {s r c : List Char} {v : Int}
    (hg : get_next_token s = some (r, c, some (LexemeKind.IntLiteral v))) :
    c ≠ [] ∧ (∀ d ∈ c, d.isDigit = true) ∧ v = Int.ofNat (decValue c) := by
  rcases get_next_token_spec hg with ⟨_, _, _, hk⟩ | ⟨a, t, hs, ha, hm, hr, hk⟩ |
    ⟨a, t, hs, ha, hm, hr, hk⟩ | ⟨hm, hne, hr, hk⟩
  · exact absurd hk (by simp)
  · exfalso
    unfold convert_identifier_str at hk
    simp only [Option.some.injEq] at hk
    split at hk <;> simp at hk
  · exact absurd hk.symm convert_symbol_str_ne_int
  · refine ⟨hne, fun d hd => List.mem_takeWhile_imp (hm ▸ hd), ?_⟩
    unfold parseI32 at hk
    by_cases hfit : decValue c ≤ 2147483647
    · simp [List.isEmpty_iff, hne, hfit] at hk
      exact hk
    · simp [List.isEmpty_iff, hne, hfit] at hk

end RustCC

namespace RustCC

/-- The first character left by dropWhile fails the predicate. -/
theorem head_dropWhile_false (p : Char → Bool) :
    ∀ (l : List Char) (b : Char) (bs : List Char), l.dropWhile p = b :: bs → p b = false
  | [], b, bs, h => by simp at h
  | a :: l, b, bs, h => by
    rw [List.dropWhile_cons] at h
    by_cases ha : p a
    · rw [if_pos ha] at h
      exact head_dropWhile_false p l b bs h
    · rw [if_neg ha] at h
      cases h
      simpa using ha

/-- C10: lex_str applied to the empty string returns success with an empty
token sequence. -/
theorem lex_str_empty : lex_str [] = LexResult.ok [] := rfl

/-- C1, evaluation at the failing input: lexing "foo\nbar" yields
Identifier "bar" at line 2 column 2, not column 1: the
AFTER_LAST_NEWLINE_REGEX match includes the final newline itself, so the
column advance past a newline overshoots by one. -/
theorem lex_str_foo_newline_bar :
    lex_str "foo\nbar".data = LexResult.ok
      [⟨LexemeKind.Identifier "foo".data, 1, 1⟩,
       ⟨LexemeKind.Identifier "bar".data, 2, 2⟩] := by decide

/-- C2: in the absence of a panic, lex_str fails exactly when the
remainder after maximal consumption is nonempty; the failure is the single
structured UnrecognizedInput error carrying the cursor position at the
first unrecognized character, success and failure being mutually exclusive
constructors so no partial token list accompanies an error; and lexing
"foo $ bar" fails with UnrecognizedInput at line 1, column 5. -/
theorem lex_str_failure_iff (s : List Char) (hnp : lex_str s ≠ LexResult.panicked) :
    ((∃ e, lex_str s = LexResult.err e) ↔ (consumeAll (s.length + 1) s 1 1).1 ≠ []) ∧
    (∀ e, lex_str s = LexResult.err e →
      e = LexError.UnrecognizedInput (consumeAll (s.length + 1) s 1 1).2.1
        (consumeAll (s.length + 1) s 1 1).2.2) ∧
    lex_str "foo $ bar".data = LexResult.err (LexError.UnrecognizedInput 1 5) := by
  unfold lex_str at hnp
  refine ⟨⟨?_, ?_⟩, ?_, by decide⟩
  · rintro ⟨e, he⟩
    unfold lex_str at he
    obtain ⟨r, l', c', hca, hr, _⟩ := lexLoop_err_spec _ _ _ _ _ _ he
    rw [hca]
    exact hr
  · intro hne
    obtain ⟨⟨r, l', c'⟩, hca⟩ : ∃ x, consumeAll (s.length + 1) s 1 1 = x := ⟨_, rfl⟩
    rw [hca] at hne
    rcases lexLoop_of_consumeAll_ne (s.length + 1) s 1 1 [] r l' c' hca hne with h | h
    · exact absurd h hnp
    · exact ⟨_, h⟩
  · intro e he
    unfold lex_str at he
    obtain ⟨r, l', c', hca, hr, he'⟩ := lexLoop_err_spec _ _ _ _ _ _ he
    rw [hca]
    exact he'

/-- Witness for lex_str_failure_iff at the concrete input "foo $ bar". -/
theorem lex_str_failure_iff_witness :
    lex_str "foo $ bar".data ≠ LexResult.panicked ∧
    ((∃ e, lex_str "foo $ bar".data = LexResult.err e) ↔
      (consumeAll ("foo $ bar".data.length + 1) "foo $ bar".data 1 1).1 ≠ []) :=
  ⟨by decide, (lex_str_failure_iff "foo $ bar".data (by decide)).1⟩

/-- C3: on success, concatenating in order the consumed spans — the
matched spans of all emitted tokens together with all discarded whitespace
spans — reconstructs the original input exactly. -/
theorem lex_str_round_trip (s : List Char) (ts : List Lexeme)
    (h : lex_str s = LexResult.ok ts) : (lexTrace s).flatten = s := by
  unfold lex_str at h
  have hres := (lexLoop_ok_spec (s.length + 1) s 1 1 [] ts h).1
  have hj := lexTraceAux_join (s.length + 1) s 1 1
  rw [hres, List.append_nil] at hj
  exact hj

/-- Witness for lex_str_round_trip at the concrete input "test foo bar". -/
theorem lex_str_round_trip_witness :
    lex_str "test foo bar".data = LexResult.ok
      [⟨LexemeKind.Identifier "test".data, 1, 1⟩,
       ⟨LexemeKind.Identifier "foo".data, 1, 6⟩,
       ⟨LexemeKind.Identifier "bar".data, 1, 10⟩] ∧
    (lexTrace "test foo bar".data).flatten = "test foo bar".data :=
  ⟨by decide, lex_str_round_trip "test foo bar".data
    [⟨LexemeKind.Identifier "test".data, 1, 1⟩,
     ⟨LexemeKind.Identifier "foo".data, 1, 6⟩,
     ⟨LexemeKind.Identifier "bar".data, 1, 10⟩] (by decide)⟩

/-- C4 counterexample: with no newline in the consumed text the column
advances by the UTF-8 byte length, not the character count.  U+00A0
(no-break space) is a whitespace character two bytes long: it is
successfully consumed, advancing the column from 1 to 3 where character
counting gives 2, so after "a" and U+00A0 the next token sits at column 4
rather than 3. -/
theorem advance_counts_bytes_cex :
    get_next_token ['\u00A0'] =
      some ([], ['\u00A0'], some (LexemeKind.Whitespace ['\u00A0'])) ∧
    advancePosition 1 1 ['\u00A0'] = (1, 3) ∧
    1 + (['\u00A0'] : List Char).length = 2 ∧
    lex_str ['a', '\u00A0', 'b'] = LexResult.ok
      [⟨LexemeKind.Identifier ['a'], 1, 1⟩, ⟨LexemeKind.Identifier ['b'], 1, 4⟩] := by
  decide

/-- C4 amended: when the consumed text contains no newline the line is
unchanged and the column advances by the UTF-8 byte length of the consumed
text — equal to its character count exactly for ASCII text. -/
theorem advance_no_newline (line column : Nat) (consumed : List Char)
    (h : consumed.count '\n' = 0) :
    advancePosition line column consumed = (line, column + utf8Length consumed) := by
  unfold advancePosition
  simp [h]

/-- Witness for advance_no_newline at the concrete span "abc". -/
theorem advance_no_newline_witness :
    ("abc".data.count '\n' = 0) ∧ advancePosition 1 1 "abc".data = (1, 4) :=
  ⟨by decide, (advance_no_newline 1 1 "abc".data (by decide)).trans (by decide)⟩

/-- C5 counterexample: the identifier recognizer is not limited to ASCII
letters, digits and underscore after the leading letter: U+00E9 belongs to
the Unicode-aware word class of the regex crate, so "aé" is matched
entirely although its second character is no ASCII word character. -/
theorem identifier_matches_non_ascii :
    identifierFind ['a', 'é'] = some ['a', 'é'] ∧ isAsciiWordChar 'é' = false := by
  decide

/-- C5 amended: a span matched by the identifier recognizer is one ASCII
letter followed by Unicode word characters, taken maximally from the start
of the input (the Unicode word class strictly contains ASCII letters,
digits and underscore). -/
theorem identifier_rule_language (s m : List Char) (h : identifierFind s = some m) :
    (∃ a t, m = a :: t ∧ isAsciiLetter a = true ∧ ∀ d ∈ t, isWordChar d = true) ∧
    (∃ rest, s = m ++ rest ∧ ∀ b bs, rest = b :: bs → isWordChar b = false) := by
  obtain ⟨a, t, rfl, ha, rfl⟩ := identifierFind_spec h
  refine ⟨⟨a, _, rfl, ha, fun d hd => List.mem_takeWhile_imp hd⟩,
    ⟨t.dropWhile isWordChar, ?_, ?_⟩⟩
  · simp [List.takeWhile_append_dropWhile]
  · intro b bs hb
    exact head_dropWhile_false isWordChar t b bs hb

/-- Witness for identifier_rule_language at the concrete input "ab9_c". -/
theorem identifier_rule_language_witness :
    identifierFind "ab9_c".data = some "ab9_c".data ∧
    (∃ a t, "ab9_c".data = a :: t ∧ isAsciiLetter a = true ∧
      ∀ d ∈ t, isWordChar d = true) :=
  ⟨by decide, (identifier_rule_language "ab9_c".data "ab9_c".data (by decide)).1⟩

/-- C6: for every span matched by the identifier-or-keyword recognizer the
resulting kind is Keyword carrying the span exactly when the span is
"return" or "int", and Identifier carrying the span otherwise. -/
theorem keyword_partition (s m : List Char) (_h : identifierFind s = some m) :
    (convert_identifier_str m = LexemeKind.Keyword m ↔
      (m = "return".data ∨ m = "int".data)) ∧
    (convert_identifier_str m = LexemeKind.Identifier m ↔
      ¬(m = "return".data ∨ m = "int".data)) := by
  have hmem : KEYWORDS.contains m = true ↔ (m = "return".data ∨ m = "int".data) := by
    simp [KEYWORDS, List.elem_iff]
  unfold convert_identifier_str
  by_cases hk : KEYWORDS.contains m = true
  · rw [if_pos hk]
    rw [hmem] at hk
    exact ⟨⟨fun _ => hk, fun _ => rfl⟩, ⟨fun he => absurd he (by simp), fun hn => absurd hk hn⟩⟩
  · rw [if_neg hk]
    rw [hmem] at hk
    exact ⟨⟨fun he => absurd he (by simp), fun hm => absurd hm hk⟩, ⟨fun _ => hk, fun _ => rfl⟩⟩

/-- Witness for keyword_partition at the concrete span "return". -/
theorem keyword_partition_witness :
    identifierFind "return".data = some "return".data ∧
    convert_identifier_str "return".data = LexemeKind.Keyword "return".data :=
  ⟨by decide, (keyword_partition "return".data "return".data (by decide)).1.mpr (Or.inl rfl)⟩

/-- C7: when every maximal digit run of the input has a value fitting a
32-bit signed integer, the lexer never panics — the parse failure branch
is unreachable; every IntLiteral produced by a recognizer step carries the
decimal value of its nonempty all-digit run; and an overflowing run such
as "2147483648" leads to a panic, never to the structured error. -/
theorem int_literal_fits (s : List Char) (hfit : runsFit s) :
    lex_str s ≠ LexResult.panicked ∧
    (∀ (u r c : List Char) (v : Int),
      get_next_token u = some (r, c, some (LexemeKind.IntLiteral v)) →
      c ≠ [] ∧ (∀ d ∈ c, d.isDigit = true) ∧ v = Int.ofNat (decValue c)) ∧
    lex_str "2147483648".data = LexResult.panicked ∧
    (∀ e, lex_str "2147483648".data ≠ LexResult.err e) := by
  refine ⟨lexLoop_no_panic _ _ _ _ _ hfit,
    fun u r c v hg => get_next_token_intLiteral hg, by decide, fun e h => ?_⟩
  rw [show lex_str "2147483648".data = LexResult.panicked by decide] at h
  exact LexResult.noConfusion h

/-- Witness for int_literal_fits at the concrete input "123". -/
theorem int_literal_fits_witness :
    runsFit "123".data ∧ lex_str "123".data ≠ LexResult.panicked := by
  have hf : runsFit "123".data := by
    unfold runsFit
    decide
  exact ⟨hf, (int_literal_fits "123".data hf).1⟩

/-- C8: the driver terminates on every input: every successful recognizer
match consumes at least one character and strictly shrinks the remainder,
so the loop's result is stable under any iteration bound exceeding the
input length. -/
theorem lex_str_terminates (s r c : List Char) (k : Option LexemeKind)
    (hg : get_next_token s = some (r, c, k)) :
    (c ≠ [] ∧ s = c ++ r ∧ r.length < s.length) ∧
    (∀ f, s.length < f → lexLoop f s 1 1 [] = lex_str s) := by
  refine ⟨get_next_token_progress hg, fun f hf => ?_⟩
  exact lexLoop_fuel_irrel f (s.length + 1) s 1 1 [] hf (Nat.lt_succ_self _)

/-- Witness for lex_str_terminates at the concrete input "ab". -/
theorem lex_str_terminates_witness :
    lexLoop 5 "ab".data 1 1 [] = lex_str "ab".data :=
  (lex_str_terminates "ab".data [] "ab".data (some (LexemeKind.Identifier "ab".data))
    (by decide)).2 5 (by decide)

/-- C9: a successful token sequence never contains a Whitespace token:
whitespace spans only advance the position cursor and are dropped. -/
theorem no_whitespace_tokens (s : List Char) (ts : List Lexeme)
    (h : lex_str s = LexResult.ok ts) :
    ∀ t ∈ ts, ∀ w, t.kind ≠ LexemeKind.Whitespace w := by
  intro t ht
  unfold lex_str at h
  rcases (lexLoop_ok_spec (s.length + 1) s 1 1 [] ts h).2 t ht with hmem | hnw
  · simp at hmem
  · exact hnw

/-- Witness for no_whitespace_tokens at the concrete input "a ". -/
theorem no_whitespace_tokens_witness :
    (⟨LexemeKind.Identifier ['a'], 1, 1⟩ : Lexeme).kind ≠ LexemeKind.Whitespace [' '] :=
  no_whitespace_tokens ['a', ' '] [⟨LexemeKind.Identifier ['a'], 1, 1⟩] (by decide)
    ⟨LexemeKind.Identifier ['a'], 1, 1⟩ (by decide) [' ']

end RustCC
